import Mathlib

/-!
Verification of the ahmi highlight-compilation pipeline.

Shallow embedding of the Python sources:
* `src/audio.py`   — word normalization and timestamp-to-segment derivation;
* `src/draft/segments.py` — clip lookup and per-segment assembly;
* `src/final.py`   — grouping, ordering and the five-step composition pipeline;
* `src/ahmi.py`    — the title generator.

Modelling conventions:
* Python floats are modelled as exact rationals (`ℚ`); none of the verified
  properties depend on rounding.
* Strings are modelled by Lean `String` (a list of unicode scalar values);
  `str.lower()` is modelled at the ASCII level by `Char.toLower`, which agrees
  with Python on the ASCII range the sources operate on.
* External media-engine invocations (`subprocess.run(..., check=True)`) are
  modelled by a success oracle: the call either succeeds, producing a media
  artifact whose duration follows ffmpeg's documented concat/trim semantics,
  or raises (non-zero exit), modelled as an `Except.error` / error field.
* Exception propagation is modelled explicitly: a raised error propagates to
  the nearest enclosing handler exactly as in the source's try/except layout.
-/

namespace Ahmi

/-! ### Python string primitives used by `src/audio.py` `normalize_word` -/

/-- Membership in Python's `string.punctuation`
(ASCII 33–47, 58–64, 91–96, 123–126). -/
def pyIsPunct (c : Char) : Bool :=
  (33 ≤ c.toNat && c.toNat ≤ 47) || (58 ≤ c.toNat && c.toNat ≤ 64) ||
  (91 ≤ c.toNat && c.toNat ≤ 96) || (123 ≤ c.toNat && c.toNat ≤ 126)

/-- The whitespace set stripped by Python's `str.strip()` (CPython's
`Py_UNICODE_ISSPACE`): tab through carriage return (9–13), the ASCII
separators 28–31, space, NEL (133), no-break space (160), ogham space
mark (5760), the typographic spaces 8192–8202, line and paragraph
separators (8232, 8233), narrow no-break space (8239), medium
mathematical space (8287) and ideographic space (12288). -/
def pyIsSpace (c : Char) : Bool :=
  (9 ≤ c.toNat && c.toNat ≤ 13) || (28 ≤ c.toNat && c.toNat ≤ 31) ||
  c.toNat = 32 || c.toNat = 133 || c.toNat = 160 || c.toNat = 5760 ||
  (8192 ≤ c.toNat && c.toNat ≤ 8202) || c.toNat = 8232 || c.toNat = 8233 ||
  c.toNat = 8239 || c.toNat = 8287 || c.toNat = 12288

/-- Remove the longest suffix of characters satisfying `p`
(the shape of Python's `str.rstrip`). -/
def dropTrailing (p : Char → Bool) (l : List Char) : List Char :=
  (l.reverse.dropWhile p).reverse

/-- Python `str.strip()` on the character list: drop leading and trailing
whitespace. -/
def pyStrip (l : List Char) : List Char :=
  dropTrailing pyIsSpace (l.dropWhile pyIsSpace)

/-- Python `str.rstrip(string.punctuation)`. -/
def pyRstripPunct (l : List Char) : List Char :=
  dropTrailing pyIsPunct l

/-- Python `str.lower()` (ASCII case mapping). -/
def pyLower (l : List Char) : List Char :=
  l.map Char.toLower

/-- `src/audio.py` `normalize_word`:
`word.strip().rstrip(string.punctuation).lower()`. -/
def normalize_word (word : String) : String :=
  ⟨pyLower (pyRstripPunct (pyStrip word.data))⟩

/-- `word` contains no whitespace character at all. -/
def noSpace (word : String) : Bool :=
  word.data.all (fun c => !(pyIsSpace c))

/-! ### Segment derivation (`src/audio.py` `process_audio_file`) -/

/-- One entry of `raw_timestamps`: a keyword occurrence
`{'Folder': keyword, 'starttime': word['start']}`. -/
structure RawEvent where
  Folder : String
  starttime : ℚ
deriving DecidableEq

/-- One entry of `processed_timestamps`:
`{'Folder': ..., 'starttime': ..., 'endtime': ...}` — the serialized
timeline-segment wire format shared with `src/draft/segments.py`. -/
structure TimelineSegment where
  Folder : String
  starttime : ℚ
  endtime : ℚ
deriving DecidableEq

/-- First pass of `process_audio_file`: keep transcribed words whose
normalized form is in the keyword vocabulary, with their start times. -/
def find_keyword_events (words : List (String × ℚ)) (keywords : List String) :
    List RawEvent :=
  words.filterMap (fun wt =>
    if normalize_word wt.1 ∈ keywords then some ⟨normalize_word wt.1, wt.2⟩
    else none)

/-- The end-time loop of `process_audio_file`: segment `i` ends where event
`i+1` starts; the last segment ends at `audio_duration`. -/
def attach_endtimes (audio_duration : ℚ) : List RawEvent → List TimelineSegment
  | [] => []
  | [e] => [⟨e.Folder, e.starttime, audio_duration⟩]
  | e :: e2 :: rest =>
    ⟨e.Folder, e.starttime, e2.starttime⟩ ::
      attach_endtimes audio_duration (e2 :: rest)

/-- The segment-derivation core of `process_audio_file` (the spec's
`deriveSegments`): empty events give an empty list; otherwise the first
event's start time is forced to `0` and end times are attached. -/
def deriveSegments (events : List RawEvent) (audio_duration : ℚ) :
    List TimelineSegment :=
  match events with
  | [] => []
  | e :: rest => attach_endtimes audio_duration ({ e with starttime := 0 } :: rest)

/-! ### Computable string helpers

Kernel-reducible models of the Python string operations the sources use
(`split`, `replace`, `endswith`, `int`, string comparison). -/

/-- Python `s.split(sep)` for a one-character separator. -/
def splitOnChar (sep : Char) : List Char → List (List Char)
  | [] => [[]]
  | c :: rest =>
    let r := splitOnChar sep rest
    if c = sep then [] :: r
    else
      match r with
      | [] => [[c]]
      | piece :: pieces => (c :: piece) :: pieces

/-- The part of `l` before the first occurrence of the non-empty separator
`sep`; the whole list when `sep` does not occur (Python `s.split(sep)[0]`). -/
def takeBefore (sep : List Char) : List Char → List Char
  | [] => []
  | c :: rest =>
    if (c :: rest).take sep.length = sep then []
    else c :: takeBefore sep rest

/-- Worker for `replaceList`: when the skip counter is positive, characters
already matched by the pattern are consumed without being emitted. -/
def replaceAllAux (p0 : Char) (ps rep : List Char) : ℕ → List Char → List Char
  | _, [] => []
  | 0, c :: rest =>
    if c = p0 && rest.take ps.length == ps then
      rep ++ replaceAllAux p0 ps rep ps.length rest
    else c :: replaceAllAux p0 ps rep 0 rest
  | k + 1, _ :: rest => replaceAllAux p0 ps rep k rest

/-- Python `s.replace(pat, rep)`: replace every (non-overlapping, leftmost)
occurrence of the non-empty pattern. -/
def replaceList (pat rep l : List Char) : List Char :=
  match pat with
  | [] => l
  | p0 :: ps => replaceAllAux p0 ps rep 0 l

/-- Python `s.endswith(suffix)`. -/
def endsWithList (suffix l : List Char) : Bool :=
  l.reverse.take suffix.length == suffix.reverse

/-- Decimal digit accumulator for Python `int(s)` on digit strings. -/
def digitsToNat : List Char → ℕ → ℕ
  | [], acc => acc
  | c :: rest, acc => digitsToNat rest (acc * 10 + (c.toNat - 48))

/-- Python string `<=`: lexicographic comparison by code point. -/
def charListLe : List Char → List Char → Bool
  | [], _ => true
  | _ :: _, [] => false
  | a :: as, b :: bs =>
    if a.toNat < b.toNat then true
    else if b.toNat < a.toNat then false
    else charListLe as bs

/-- The ordering Python's `sorted` uses on strings. -/
def pyLe (a b : String) : Prop := charListLe a.data b.data = true

instance : DecidableRel pyLe := fun _ _ => instDecidableEqBool _ _

/-! ### Title generation (`src/ahmi.py` `AnimeVideoNamer.create_title`) -/

/-- One element of the `entries` list passed to `create_title` (the dicts
built by `get_segment_entries`; only `Folder` is read by the namer). -/
structure Entry where
  Folder : String
  starttime : ℚ
  endtime : ℚ
deriving DecidableEq

/-- The `AnimeVideoNamer.associations` dictionary. -/
def associations : List (String × String) :=
  [("luffy", "onepiece"), ("naruto", "narutoshippuden"), ("saitama", "opm"),
   ("goku", "dbz"), ("ichigo", "bleach"), ("gojo", "jjk"),
   ("madara", "naruto"), ("sukuna", "jjk"), ("kakashi", "naruto"),
   ("vegeta", "dragonball")]

/-- Python `str.lower()` on a whole string. -/
def strLower (s : String) : String := ⟨pyLower s.data⟩

/-- Python `set.add` on the list model of the hashtag set. -/
def set_add (tags : List String) (t : String) : List String :=
  if t ∈ tags then tags else tags ++ [t]

/-- The `for entry in entries` loop of `create_title`: accumulates
`seen_folders` (first-seen order, deduplicated) and the hashtag set, which
starts at `{"#animebattle"}` and gains one combined `"#assoc #folder"`
string per seen folder with an association. -/
def create_title_fold (entries : List Entry) : List String × List String :=
  entries.foldl (fun acc entry =>
    let folder := strLower entry.Folder
    if folder ∈ acc.1 then acc
    else
      match associations.lookup folder with
      | some assoc_word =>
        (acc.1 ++ [folder], set_add acc.2 (("#" ++ assoc_word) ++ (" #" ++ folder)))
      | none => (acc.1 ++ [folder], acc.2))
    ([], [("#animebattle")])

/-- Python `sep.join(l)`. -/
def joinWith (sep : String) : List String → String
  | [] => ""
  | [s] => s
  | s :: s2 :: rest => s ++ sep ++ joinWith sep (s2 :: rest)

/-- `src/ahmi.py` `AnimeVideoNamer.create_title`: `" vs "`-joined first-seen
folders, then the hashtag set sorted (Python `sorted`) and space-joined;
with `for_filename` every underscore of the full title becomes `#`. -/
def create_title (entries : List Entry) (for_filename : Bool) : String :=
  let sf := create_title_fold entries
  let title_main := joinWith (" vs ") sf.1
  let hashtags_str := joinWith (" ") (List.insertionSort pyLe sf.2)
  let full_title := (title_main ++ " ") ++ hashtags_str
  if for_filename then ⟨replaceList ("_").data ("#").data full_title.data⟩
  else full_title

/-! ### Grouping and ordering (`src/final.py` `group_segments` and the sort
in `process_video_group`) -/

/-- `src/final.py`: `f.split('_segment_')[0]` — the recording base name
encoded in a segment-unit filename. -/
def base_of (f : String) : String :=
  ⟨takeBefore ("_segment_").data f.data⟩

/-- The segment index encoded in a segment-unit filename:
`int(x.split('_')[2])` (filenames follow `{base}_segment_{num}_{keyword}.mp4`
with an underscore-free base). -/
def segIndex (s : String) : ℕ :=
  digitsToNat ((splitOnChar ('_') s.data).getD 2 []) 0

/-- Insert `f` into the group keyed `base` of an insertion-ordered
association list (the model of the Python dict of lists). -/
def addToGroup : List (String × List String) → String → String →
    List (String × List String)
  | [], base, f => [(base, [f])]
  | (k, v) :: rest, base, f =>
    if k = base then (k, v ++ [f]) :: rest
    else (k, v) :: addToGroup rest base f

/-- `src/final.py` `group_segments`: group the `.mp4` listing of the
segments directory by base name, in listing/insertion order. -/
def group_segments (files : List String) : List (String × List String) :=
  files.foldl (fun groups f =>
    if endsWithList (".mp4").data f.data then addToGroup groups (base_of f) f
    else groups) []

/-- The comparison used by
`sorted(segment_group, key=lambda x: int(x.split('_')[2]))`. -/
def segLe (a b : String) : Prop := segIndex a ≤ segIndex b

instance : DecidableRel segLe := fun a b => Nat.decLe (segIndex a) (segIndex b)

instance : IsTotal String segLe := ⟨fun a b => Nat.le_total (segIndex a) (segIndex b)⟩

instance : IsTrans String segLe := ⟨fun _ _ _ => Nat.le_trans⟩

/-- `src/final.py` `process_video_group`: the segment units of one group,
sorted by encoded segment index (Python's `sorted` is stable; insertion
sort models it). -/
def sorted_segments (segment_group : List String) : List String :=
  List.insertionSort segLe segment_group

/-- `src/final.py` `get_segment_entries`: one entry per filename with at
least four underscore-separated parts; `Folder` is the fourth part with
`.mp4` removed; the time fields are unused by the namer and set to `0`. -/
def get_segment_entries (segment_group : List String) : List Entry :=
  segment_group.filterMap (fun seg =>
    let parts := splitOnChar ('_') seg.data
    if 4 ≤ parts.length then
      some ⟨⟨replaceList (".mp4").data [] (parts.getD 3 [])⟩, 0, 0⟩
    else none)

/-! ### Composition pipeline (`src/final.py` `process_video_group`, `main`) -/

/-- The five fixed temporary artifacts of one composition
(`temp_concat.txt`, `temp_video_no_audio.mp4`, `temp_original_audio.wav`,
`temp_bg_music.wav`, `temp_mixed_audio.wav`). -/
inductive TempFile
  | concatList
  | videoNoAudio
  | originalAudio
  | bgMusic
  | mixedAudio
deriving DecidableEq

/-- The cleanup list of `process_video_group`:
`[concat_list, video_no_audio, original_audio, bg_music, mixed_audio]`. -/
def allTempFiles : List TempFile :=
  [TempFile.concatList, TempFile.videoNoAudio, TempFile.originalAudio,
   TempFile.bgMusic, TempFile.mixedAudio]

/-- Observable outcome of one `process_video_group` call: which temporary
artifacts were created and removed, the embedded title of the produced
final video (on success), and the raised error (on failure). -/
structure PVGResult where
  concatOrder : List String
  tempCreated : List TempFile
  tempRemoved : List TempFile
  output : Option String
  error : Option String
deriving DecidableEq

/-- `src/final.py` `process_video_group`. `engineOk n` tells whether the
`n`-th external-engine invocation (1 concat, 2 narration extract, 3 music
attenuate, 4 mix, 5 mux) exits zero; a non-zero exit raises
(`subprocess.run(..., check=True)`) out of the function, and the cleanup
loop — which runs only after step 5 — is skipped. The concat list file is
written before any invocation; each invocation's output artifact exists
only if it succeeded. -/
def process_video_group (engineOk : ℕ → Bool) (segment_group : List String) :
    PVGResult :=
  let title := create_title (get_segment_entries segment_group) true
  let segments := sorted_segments segment_group
  let c1 : List TempFile := [TempFile.concatList]
  if !engineOk 1 then ⟨segments, c1, [], none, some ("concat failed")⟩ else
  let c2 := c1 ++ [TempFile.videoNoAudio]
  if !engineOk 2 then ⟨segments, c2, [], none, some ("audio extract failed")⟩ else
  let c3 := c2 ++ [TempFile.originalAudio]
  if !engineOk 3 then ⟨segments, c3, [], none, some ("music failed")⟩ else
  let c4 := c3 ++ [TempFile.bgMusic]
  if !engineOk 4 then ⟨segments, c4, [], none, some ("mix failed")⟩ else
  let c5 := c4 ++ [TempFile.mixedAudio]
  if !engineOk 5 then ⟨segments, c5, [], none, some ("mux failed")⟩ else
  ⟨segments, c5, allTempFiles.filter (· ∈ c5), some title, none⟩

/-- The `for base_name, segments in segment_groups.items()` loop of
`src/final.py` `main`: groups are processed in order; an exception raised
by `process_video_group` propagates to the single top-level handler, so
the loop stops and the remaining groups are never processed. Returns the
bases of the groups whose composition completed and the caught error. -/
def final_main_loop (engineOk : String → ℕ → Bool) :
    List (String × List String) → List String × Option String
  | [] => ([], none)
  | (base, segs) :: rest =>
    match (process_video_group (engineOk base) segs).error with
    | some e => ([], some e)
    | none =>
      let r := final_main_loop engineOk rest
      (base :: r.1, r.2)

/-- `src/final.py` `main` (after environment validation): group the
segments-directory listing and compose each group. -/
def final_main (engineOk : String → ℕ → Bool) (files : List String) :
    List String × Option String :=
  final_main_loop engineOk (group_segments files)

/-! ### Segment assembly (`src/draft/segments.py`) -/

instance {ε α : Type} [DecidableEq ε] [DecidableEq α] : DecidableEq (Except ε α) := fun x y =>
  match x, y with
  | Except.error a, Except.error b =>
    if h : a = b then isTrue (congrArg Except.error h)
    else isFalse (fun he => h (Except.error.inj he))
  | Except.error _, Except.ok _ => isFalse (fun he => Except.noConfusion he)
  | Except.ok _, Except.error _ => isFalse (fun he => Except.noConfusion he)
  | Except.ok a, Except.ok b =>
    if h : a = b then isTrue (congrArg Except.ok h)
    else isFalse (fun he => h (Except.ok.inj he))

/-- A media artifact, abstracted to its playable duration. -/
structure MediaFile where
  duration : ℚ
deriving DecidableEq

/-- ffmpeg concat with stream copy (`-f concat ... -c copy`): the output's
duration is the sum of the inputs' durations. -/
def ffmpeg_concat_copy (clips : List MediaFile) : MediaFile :=
  ⟨(clips.map MediaFile.duration).sum⟩

/-- ffmpeg `-t d` trimming: the output stops at `d`, or at the end of the
input if the input is shorter — never an error. -/
def ffmpeg_trim (input : MediaFile) (d : ℚ) : MediaFile :=
  if input.duration ≤ d then input else ⟨d⟩

/-- `src/draft/segments.py` `create_segment`: concatenate the clips, then
trim to `duration`. `engineOk` models the exit status of the two
`subprocess.run(..., check=True)` invocations (`false` raises
`CalledProcessError`). -/
def create_segment (engineOk : Bool) (clips : List MediaFile) (duration : ℚ) :
    Except String MediaFile :=
  if engineOk then Except.ok (ffmpeg_trim (ffmpeg_concat_copy clips) duration)
  else Except.error ("ffmpeg failed")

/-- `src/draft/segments.py` `get_clips_for_keyword`: `pools` maps a keyword
to its clip directory listing (`none` = directory missing). Raises when the
directory is missing or holds no clips. -/
def get_clips_for_keyword (pools : String → Option (List MediaFile))
    (keyword : String) : Except String (List MediaFile) :=
  match pools keyword with
  | none => Except.error ("No clips found for keyword " ++ keyword)
  | some [] => Except.error ("No MP4 clips found for " ++ keyword)
  | some (c :: cs) => Except.ok (c :: cs)

/-- The `for i, segment in enumerate(segments_data)` loop of
`src/draft/segments.py` `process_segments`: a clip-lookup error is caught
(`try/except` around `get_clips_for_keyword` only) and the segment skipped;
an error raised by `create_segment` propagates, aborting the remaining
segments. `engineOk i` is the engine outcome for segment `i`. Returns the
indices of the segments successfully assembled. -/
def process_segments_loop (pools : String → Option (List MediaFile))
    (engineOk : ℕ → Bool) : ℕ → List TimelineSegment → Except String (List ℕ)
  | _, [] => Except.ok []
  | i, seg :: rest =>
    match get_clips_for_keyword pools seg.Folder with
    | Except.error _ => process_segments_loop pools engineOk (i + 1) rest
    | Except.ok clips =>
      match create_segment (engineOk i) clips (seg.endtime - seg.starttime) with
      | Except.error e => Except.error e
      | Except.ok _ =>
        match process_segments_loop pools engineOk (i + 1) rest with
        | Except.error e => Except.error e
        | Except.ok done => Except.ok (i :: done)

/-- `src/draft/segments.py` `process_segments` on one deserialized
segments JSON document. -/
def process_segments (pools : String → Option (List MediaFile))
    (engineOk : ℕ → Bool) (segments_data : List TimelineSegment) :
    Except String (List ℕ) :=
  process_segments_loop pools engineOk 0 segments_data

/-- The `for json_file in json_files` loop of `src/draft/segments.py`
`main`: an error escaping `process_segments` is caught only by the single
top-level handler, so the remaining JSON documents are never processed.
Returns, per completed document index, the assembled segment indices,
plus the caught error. -/
def segments_main_loop (pools : String → Option (List MediaFile))
    (engineOk : ℕ → ℕ → Bool) : ℕ → List (List TimelineSegment) →
    List (ℕ × List ℕ) × Option String
  | _, [] => ([], none)
  | j, doc :: rest =>
    match process_segments pools (engineOk j) doc with
    | Except.error e => ([], some e)
    | Except.ok done =>
      let r := segments_main_loop pools engineOk (j + 1) rest
      ((j, done) :: r.1, r.2)

/-- `src/draft/segments.py` `main` (after environment validation). -/
def segments_main (pools : String → Option (List MediaFile))
    (engineOk : ℕ → ℕ → Bool) (docs : List (List TimelineSegment)) :
    List (ℕ × List ℕ) × Option String :=
  segments_main_loop pools engineOk 0 docs

/-! ## Helper lemmas -/

theorem toNat_ofNat_of_valid {n : ℕ} (h : n.isValidChar) : (Char.ofNat n).toNat = n := by
  simp only [Char.ofNat, dif_pos h, Char.ofNatAux, Char.toNat, UInt32.toNat,
    BitVec.toNat_ofNatLt]

theorem toNat_toLower (c : Char) :
    c.toLower.toNat = if 65 ≤ c.toNat ∧ c.toNat ≤ 90 then c.toNat + 32 else c.toNat := by
  by_cases h : 65 ≤ c.toNat ∧ c.toNat ≤ 90
  · rw [if_pos h]
    simp only [Char.toLower, if_pos h]
    exact toNat_ofNat_of_valid (Or.inl (by omega))
  · rw [if_neg h]
    simp only [Char.toLower, if_neg h]

theorem toLower_eq_self {c : Char} (h : ¬(65 ≤ c.toNat ∧ c.toNat ≤ 90)) :
    c.toLower = c := by
  simp only [Char.toLower, if_neg h]

theorem toLower_toLower (c : Char) : c.toLower.toLower = c.toLower := by
  by_cases h : 65 ≤ c.toNat ∧ c.toNat ≤ 90
  · refine toLower_eq_self ?_
    rw [toNat_toLower, if_pos h]
    omega
  · rw [toLower_eq_self h, toLower_eq_self h]

theorem pyIsSpace_toLower {c : Char} (h : pyIsSpace c = false) :
    pyIsSpace c.toLower = false := by
  simp only [pyIsSpace, Bool.or_eq_false_iff, Bool.and_eq_false_iff,
    decide_eq_false_iff_not] at h ⊢
  by_cases hu : 65 ≤ c.toNat ∧ c.toNat ≤ 90
  · simp only [toNat_toLower, if_pos hu]
    omega
  · simp only [toNat_toLower, if_neg hu]
    exact h

theorem pyIsPunct_toLower {c : Char} (h : pyIsPunct c = false) :
    pyIsPunct c.toLower = false := by
  simp only [pyIsPunct, Bool.or_eq_false_iff, Bool.and_eq_false_iff,
    decide_eq_false_iff_not] at h ⊢
  by_cases hu : 65 ≤ c.toNat ∧ c.toNat ≤ 90
  · simp only [toNat_toLower, if_pos hu]
    omega
  · simp only [toNat_toLower, if_neg hu]
    exact h

theorem dropWhile_eq_self {p : Char → Bool} {l : List Char}
    (h : ∀ c ∈ l, p c = false) : l.dropWhile p = l := by
  cases l with
  | nil => rfl
  | cons a t => simp [List.dropWhile_cons, h a (List.mem_cons_self a t)]

theorem dropWhile_eq_self_of_head {p : Char → Bool} {l : List Char}
    (h : ∀ c, l.head? = some c → p c = false) : l.dropWhile p = l := by
  cases l with
  | nil => rfl
  | cons a t => simp [List.dropWhile_cons, h a rfl]

theorem head?_dropWhile {p : Char → Bool} :
    ∀ {l : List Char} {c}, (l.dropWhile p).head? = some c → p c = false
  | [], _, h => by simp at h
  | a :: t, c, h => by
    cases hpa : p a with
    | true =>
      rw [List.dropWhile_cons, if_pos hpa] at h
      exact head?_dropWhile h
    | false =>
      rw [List.dropWhile_cons, if_neg (by simp [hpa])] at h
      cases h
      exact hpa

theorem dropTrailing_eq_self {p : Char → Bool} {l : List Char}
    (h : ∀ c ∈ l, p c = false) : dropTrailing p l = l := by
  rw [dropTrailing, dropWhile_eq_self (fun c hc => h c (List.mem_reverse.mp hc)),
    List.reverse_reverse]

theorem dropTrailing_eq_self_of_getLast? {p : Char → Bool} {l : List Char}
    (h : ∀ c, l.getLast? = some c → p c = false) : dropTrailing p l = l := by
  rw [dropTrailing, dropWhile_eq_self_of_head (fun c hc => h c (by
    rwa [List.head?_reverse] at hc)), List.reverse_reverse]

theorem mem_of_mem_dropTrailing {p : Char → Bool} {l : List Char} {c : Char}
    (hc : c ∈ dropTrailing p l) : c ∈ l := by
  rw [dropTrailing, List.mem_reverse] at hc
  exact List.mem_reverse.mp ((List.dropWhile_sublist _).subset hc)

theorem getLast?_dropTrailing {p : Char → Bool} {l : List Char} {c : Char}
    (h : (dropTrailing p l).getLast? = some c) : p c = false := by
  rw [dropTrailing, List.getLast?_reverse] at h
  exact head?_dropWhile h

theorem pyStrip_eq_self {l : List Char} (h : ∀ c ∈ l, pyIsSpace c = false) :
    pyStrip l = l := by
  rw [pyStrip, dropWhile_eq_self h, dropTrailing_eq_self h]

/-! ### Lemmas on `attach_endtimes` (C5, C6) -/

theorem attach_endtimes_start (D : ℚ) (e : RawEvent) (rest : List RawEvent) :
    ∀ {t}, (attach_endtimes D (e :: rest))[0]? = some t → t.starttime = e.starttime := by
  intro t h
  cases rest with
  | nil =>
    simp only [attach_endtimes, List.getElem?_cons_zero, Option.some.injEq] at h
    rw [← h]
  | cons r rs =>
    simp only [attach_endtimes, List.getElem?_cons_zero, Option.some.injEq] at h
    rw [← h]

theorem attach_endtimes_adjacent (D : ℚ) :
    ∀ (l : List RawEvent) (i : ℕ) (s t : TimelineSegment),
      (attach_endtimes D l)[i]? = some s → (attach_endtimes D l)[i + 1]? = some t →
      s.endtime = t.starttime
  | [], _, _, _, hs, _ => by simp [attach_endtimes] at hs
  | [_], _, _, _, _, ht => by simp [attach_endtimes] at ht
  | e :: e2 :: rest, 0, s, t, hs, ht => by
    simp only [attach_endtimes, List.getElem?_cons_zero, Option.some.injEq] at hs
    simp only [attach_endtimes, List.getElem?_cons_succ] at ht
    rw [← hs]
    exact (attach_endtimes_start D e2 rest ht).symm
  | e :: e2 :: rest, i + 1, s, t, hs, ht =>
    attach_endtimes_adjacent D (e2 :: rest) i s t
      (by simpa [attach_endtimes] using hs)
      (by simpa [attach_endtimes] using ht)

theorem attach_endtimes_getLast (D : ℚ) :
    ∀ (l : List RawEvent) (u : TimelineSegment),
      (attach_endtimes D l).getLast? = some u → u.endtime = D
  | [], _, h => by simp [attach_endtimes] at h
  | [e], u, h => by
    simp only [attach_endtimes, List.getLast?_singleton, Option.some.injEq] at h
    rw [← h]
  | e :: e2 :: rest, u, h =>
    attach_endtimes_getLast D (e2 :: rest) u (by
      cases rest with
      | nil => simpa [attach_endtimes, List.getLast?] using h
      | cons r rs => simpa [attach_endtimes, List.getLast?] using h)

theorem attach_endtimes_map_Folder (D : ℚ) :
    ∀ l : List RawEvent,
      (attach_endtimes D l).map TimelineSegment.Folder = l.map RawEvent.Folder
  | [] => rfl
  | [_] => rfl
  | e :: e2 :: rest => by
    simp only [attach_endtimes, List.map_cons, List.cons.injEq, true_and]
    exact attach_endtimes_map_Folder D (e2 :: rest)

theorem attach_endtimes_length (D : ℚ) (l : List RawEvent) :
    (attach_endtimes D l).length = l.length := by
  rw [← List.length_map (attach_endtimes D l) TimelineSegment.Folder,
    attach_endtimes_map_Folder, List.length_map]

/-! ## Claim theorems -/

/-- C10 (counterexample): `normalize_word` is not idempotent. On `"ab ."`
one application yields `"ab "` (stripping the trailing dot exposes a
space), a second application yields `"ab"`. -/
theorem normalize_word_not_idempotent :
    normalize_word (normalize_word ("ab .")) ≠ normalize_word ("ab .") := by
  decide

/-- C10 (amended): `normalize_word` is idempotent on every input containing
no whitespace character: then stripping is the identity, and stripping
trailing punctuation can expose no whitespace, so a second application
changes nothing. -/
theorem normalize_word_idem_of_noSpace (w : String) (h : noSpace w = true) :
    normalize_word (normalize_word w) = normalize_word w := by
  have hall : ∀ c ∈ w.data, pyIsSpace c = false := by
    intro c hc
    have := (List.all_eq_true.mp h) c hc
    simpa using this
  have hnw : normalize_word w = ⟨pyLower (pyRstripPunct w.data)⟩ := by
    rw [normalize_word, pyStrip_eq_self hall]
  have hm0mem : ∀ c ∈ pyRstripPunct w.data, pyIsSpace c = false :=
    fun c hc => hall c (mem_of_mem_dropTrailing hc)
  have hmmem : ∀ c ∈ pyLower (pyRstripPunct w.data), pyIsSpace c = false := by
    intro c hc
    obtain ⟨c0, hc0, rfl⟩ := List.mem_map.mp hc
    exact pyIsSpace_toLower (hm0mem c0 hc0)
  have hpunct : pyRstripPunct (pyLower (pyRstripPunct w.data)) =
      pyLower (pyRstripPunct w.data) := by
    apply dropTrailing_eq_self_of_getLast?
    intro c hc
    rw [pyLower, List.getLast?_map] at hc
    obtain ⟨c0, hc0, rfl⟩ := Option.map_eq_some'.mp hc
    exact pyIsPunct_toLower (getLast?_dropTrailing hc0)
  have hlower : pyLower (pyLower (pyRstripPunct w.data)) =
      pyLower (pyRstripPunct w.data) := by
    rw [pyLower, pyLower, List.map_map]
    exact List.map_congr_left (fun c _ => toLower_toLower c)
  rw [hnw, normalize_word]
  rw [show (String.mk (pyLower (pyRstripPunct w.data))).data =
      pyLower (pyRstripPunct w.data) from rfl]
  rw [pyStrip_eq_self hmmem, hpunct, hlower]

/-- C10 (witness): `"Ab."` contains no whitespace and normalizing it twice
equals normalizing it once. -/
theorem normalize_word_idem_witness :
    noSpace ("Ab.") = true ∧
      normalize_word (normalize_word ("Ab.")) = normalize_word ("Ab.") :=
  ⟨by decide, normalize_word_idem_of_noSpace ("Ab.") (by decide)⟩

/-- C5: whenever segment derivation returns segments, consecutive segments
are contiguous (`endtime i = starttime (i+1)`) and the last segment ends
exactly at the total duration. -/
theorem deriveSegments_contiguous (events : List RawEvent) (D : ℚ) :
    (∀ i s t, (deriveSegments events D)[i]? = some s →
      (deriveSegments events D)[i + 1]? = some t → s.endtime = t.starttime) ∧
    (∀ u, (deriveSegments events D).getLast? = some u → u.endtime = D) := by
  cases events with
  | nil =>
    constructor
    · intro i s t hs _
      simp [deriveSegments] at hs
    · intro u hu
      simp [deriveSegments] at hu
  | cons e rest =>
    constructor
    · intro i s t hs ht
      exact attach_endtimes_adjacent D ({ e with starttime := 0 } :: rest) i s t hs ht
    · intro u hu
      exact attach_endtimes_getLast D ({ e with starttime := 0 } :: rest) u hu

/-- C5 (witness): instantiated on the spec's end-to-end scenario
(events luffy@2, naruto@10, duration 15). -/
theorem deriveSegments_contiguous_witness :
    (⟨"luffy", 0, 10⟩ : TimelineSegment).endtime =
      (⟨"naruto", 10, 15⟩ : TimelineSegment).starttime ∧
    (⟨"naruto", 10, 15⟩ : TimelineSegment).endtime = 15 :=
  ⟨(deriveSegments_contiguous [⟨"luffy", 2⟩, ⟨"naruto", 10⟩] 15).1 0 _ _
      (by decide) (by decide),
   (deriveSegments_contiguous [⟨"luffy", 2⟩, ⟨"naruto", 10⟩] 15).2 _ (by decide)⟩

/-- C6: on a non-empty event list, the first derived segment starts at
exactly `0`, and the segments carry the events' keywords one-for-one in
input order. -/
theorem deriveSegments_first_zero_order (events : List RawEvent) (D : ℚ)
    (h : events ≠ []) :
    (∀ s, (deriveSegments events D)[0]? = some s → s.starttime = 0) ∧
    (deriveSegments events D).map TimelineSegment.Folder =
      events.map RawEvent.Folder ∧
    (deriveSegments events D).length = events.length := by
  cases events with
  | nil => exact absurd rfl h
  | cons e rest =>
    refine ⟨fun s hs => attach_endtimes_start D _ rest hs, ?_, ?_⟩
    · rw [deriveSegments, attach_endtimes_map_Folder]
      rfl
    · rw [deriveSegments, attach_endtimes_length]
      rfl

/-- C6 (witness): instantiated on events luffy@2, naruto@10, duration 15:
the first segment starts at `0` although the first event starts at `2`,
and the keywords appear in order. -/
theorem deriveSegments_first_zero_order_witness :
    (⟨"luffy", 0, 10⟩ : TimelineSegment).starttime = 0 ∧
    (deriveSegments [⟨"luffy", 2⟩, ⟨"naruto", 10⟩] 15).map TimelineSegment.Folder =
      ([⟨"luffy", 2⟩, ⟨"naruto", 10⟩] : List RawEvent).map RawEvent.Folder :=
  ⟨(deriveSegments_first_zero_order [⟨"luffy", 2⟩, ⟨"naruto", 10⟩] 15
      (by decide)).1 _ (by decide),
   (deriveSegments_first_zero_order [⟨"luffy", 2⟩, ⟨"naruto", 10⟩] 15
      (by decide)).2.1⟩

/-- C2: on events luffy@0, goku@10 with total duration 5 (less than the
last event's start time), segment derivation does not fail: it returns a
list whose last segment is `(goku, 10, 5)` — a negative-duration segment,
neither rejected nor clamped (the function has no error outcome at all). -/
theorem deriveSegments_negative_last_segment :
    deriveSegments [⟨"luffy", 0⟩, ⟨"goku", 10⟩] 5 =
      [⟨"luffy", 0, 10⟩, ⟨"goku", 10, 5⟩] ∧
    (⟨"goku", 10, 5⟩ : TimelineSegment).endtime <
      (⟨"goku", 10, 5⟩ : TimelineSegment).starttime := by
  constructor
  · decide
  · decide

/-- C3: when the engine invocations succeed, `create_segment` always
returns the trimmed concatenation — there is no `InsufficientClipDuration`
outcome. In particular a single 1-second clip against a 5-second target
(total clip duration below target) yields a normal 1-second output. -/
theorem create_segment_undersupply_short_output :
    (∀ clips d, create_segment true clips d =
      Except.ok (ffmpeg_trim (ffmpeg_concat_copy clips) d)) ∧
    ((([⟨1⟩] : List MediaFile).map MediaFile.duration).sum < 5) ∧
    create_segment true [⟨1⟩] 5 = Except.ok ⟨1⟩ := by
  refine ⟨fun clips d => rfl, ?_, ?_⟩
  · norm_num
  · norm_num [create_segment, ffmpeg_trim, ffmpeg_concat_copy]

/-- C4: an engine failure while assembling segment 0 aborts
`process_segments` — segment 1, whose clips are available, is never
assembled — and aborts the remaining recordings' documents in `main`;
by contrast a clip-lookup failure on segment 0 is isolated and segment 1
is still assembled. -/
theorem process_segments_abort_on_assembly_failure :
    process_segments (fun _ => some [⟨2⟩]) (fun i => i != 0)
        [⟨"luffy", 0, 1⟩, ⟨"luffy", 1, 2⟩] = Except.error ("ffmpeg failed") ∧
    segments_main (fun _ => some [⟨2⟩]) (fun _ i => i != 0)
        [[⟨"luffy", 0, 1⟩], [⟨"goku", 0, 1⟩]] = ([], some ("ffmpeg failed")) ∧
    process_segments (fun k => if k = "luffy" then none else some [⟨2⟩])
        (fun _ => true) [⟨"luffy", 0, 1⟩, ⟨"goku", 1, 2⟩] = Except.ok [1] := by
  refine ⟨?_, ?_, ?_⟩
  · norm_num [process_segments, process_segments_loop, get_clips_for_keyword,
      create_segment, ffmpeg_trim, ffmpeg_concat_copy]
  · norm_num [segments_main, segments_main_loop, process_segments,
      process_segments_loop, get_clips_for_keyword, create_segment,
      ffmpeg_trim, ffmpeg_concat_copy]
  · norm_num [process_segments, process_segments_loop, get_clips_for_keyword,
      create_segment, ffmpeg_trim, ffmpeg_concat_copy]
    decide

/-- C7 (counterexample): two units of one group with the same segment
index 0 are silently kept — both survive the ordering step in their
arrival order; nothing fails (the function has no error outcome). -/
theorem sorted_segments_keeps_duplicates :
    sorted_segments [("r_segment_0_a.mp4"), ("r_segment_0_b.mp4")] =
      [("r_segment_0_a.mp4"), ("r_segment_0_b.mp4")] := by
  decide

/-- C7 (amended): for any arrival order, the ordering step sorts a
recording group's units by encoded segment index ascending, keeping
exactly the given units (a permutation); duplicate indices are not
detected — no error is raised and both duplicates are kept. -/
theorem sorted_segments_sorted_by_index (g : List String) :
    List.Sorted segLe (sorted_segments g) ∧ (sorted_segments g).Perm g :=
  ⟨List.sorted_insertionSort segLe g, List.perm_insertionSort segLe g⟩

/-- C1: with two recording groups `a` and `b` where every engine call of
group `a` fails and every call of group `b` would succeed, the run aborts
on `a`'s failure and `b` is never composed (no group completes); with a
fully succeeding engine the same input completes both groups. -/
theorem final_main_aborts_siblings_on_failure :
    final_main (fun base _ => !(base = "a"))
        [("a_segment_0_luffy.mp4"), ("b_segment_0_goku.mp4")] =
      ([], some ("concat failed")) ∧
    final_main (fun _ _ => true)
        [("a_segment_0_luffy.mp4"), ("b_segment_0_goku.mp4")] =
      ([("a"), ("b")], none) := by
  constructor
  · decide
  · decide

/-- C8: temporary artifacts are released only on the all-success path:
with a succeeding engine all five temporaries are removed, but when the
final mux (step 5) fails all five exist and none is removed, and when the
first step fails the written concat list is leaked. -/
theorem process_video_group_cleanup_only_on_success :
    (process_video_group (fun _ => true) [("a_segment_0_luffy.mp4")]).tempRemoved =
      allTempFiles ∧
    (process_video_group (fun n => Nat.ble n 4) [("a_segment_0_luffy.mp4")]).tempCreated =
      allTempFiles ∧
    (process_video_group (fun n => Nat.ble n 4) [("a_segment_0_luffy.mp4")]).tempRemoved =
      [] ∧
    (process_video_group (fun _ => false) [("a_segment_0_luffy.mp4")]).tempCreated =
      [TempFile.concatList] ∧
    (process_video_group (fun _ => false) [("a_segment_0_luffy.mp4")]).tempRemoved =
      [] := by
  refine ⟨?_, ?_, ?_, ?_, ?_⟩ <;> decide

/-- C9 (counterexample): on keywords luffy, goku the generated title is
`"luffy vs goku #animebattle #dbz #goku #onepiece #luffy"` — the five
tags are not space-joined in lexicographic order of the individual tags,
which would put `#luffy` before `#onepiece`. -/
theorem create_title_not_individually_sorted :
    create_title [⟨"luffy", 0, 0⟩, ⟨"goku", 0, 0⟩] false =
      ("luffy vs goku #animebattle #dbz #goku #onepiece #luffy") ∧
    create_title [⟨"luffy", 0, 0⟩, ⟨"goku", 0, 0⟩] false ≠
      ("luffy vs goku #animebattle #dbz #goku #luffy #onepiece") := by
  constructor
  · decide
  · decide

/-- C9 (amended): on keywords luffy, goku the main title is
`"luffy vs goku"`, and the tag part contains all five tags `#animebattle`,
`#onepiece`, `#luffy`, `#dbz`, `#goku`, but grouped as the combined
strings `"#onepiece #luffy"` and `"#dbz #goku"` (one per association),
joined in lexicographic order of these combined strings. -/
theorem create_title_luffy_goku :
    create_title [⟨"luffy", 0, 0⟩, ⟨"goku", 0, 0⟩] false =
      ("luffy vs goku") ++ (" ") ++
        joinWith (" ") [("#animebattle"), ("#dbz #goku"), ("#onepiece #luffy")] := by
  decide

end Ahmi
